import Mathlib

/-!
Shallow embedding of the Layer & History Engine of the image-text-composer
repository (src/src/components/TextEditor.tsx and the warped-text renderer).

Numeric fields that are JavaScript numbers are modelled as exact rationals
(`ℚ`); the real-valued warp geometry is modelled over `ℝ`.  JavaScript
arrays become `List`, the `Set<string>` of selected ids becomes a
`List String` in insertion order (JS sets iterate in insertion order), and
`Date.now()` is passed in explicitly as a `Nat` parameter wherever the code
reads the clock.  React state updates inside one handler are applied
sequentially to an explicit `EditorState` record; each handler reads the
pre-update values, exactly as the JS closures do.
-/

/-- Shadow sub-record of a text layer (TextEditor.tsx, `textShadow`). -/
structure TextShadow where
  color : String
  blur : ℚ
  offsetX : ℚ
  offsetY : ℚ
deriving DecidableEq

/-- Custom font entry (TextEditor.tsx, `customFonts` array elements). -/
structure CustomFont where
  name : String
  url : String
  fontType : String
deriving DecidableEq

/-- Style template used for newly created layers (interface `TextStyle`). -/
structure TextStyle where
  fontSize : ℚ
  fontFamily : String
  fontWeight : String
  fill : String
  stroke : String
  strokeWidth : ℚ
  textAlign : String
  fontStyle : String
  opacity : ℚ
  lineHeight : ℚ
  letterSpacing : ℚ
  textDecoration : String
  textShadow : TextShadow
  paragraphWidth : ℚ
deriving DecidableEq

/-- One text layer (interface `TextLayer` in TextEditor.tsx). -/
structure TextLayer where
  id : String
  x : ℚ
  y : ℚ
  text : String
  fontSize : ℚ
  fontFamily : String
  fontWeight : String
  fill : String
  stroke : String
  strokeWidth : ℚ
  textAlign : String
  fontStyle : String
  opacity : ℚ
  lineHeight : ℚ
  letterSpacing : ℚ
  textDecoration : String
  textShadow : TextShadow
  paragraphWidth : ℚ
  rotation : ℚ
  scaleX : ℚ
  scaleY : ℚ
  locked : Bool
  isWarped : Bool
  warpPath : String
  warpPathType : String
  warpRadius : ℚ
  warpAngle : ℚ
  warpSpacing : ℚ
  showSpacingHints : Bool
  spacingHintColor : String
  spacingHintOpacity : ℚ
  customFonts : List CustomFont
deriving DecidableEq

/-- The `defaultTextStyle` constant of TextEditor.tsx. -/
def defaultTextStyle : TextStyle :=
  { fontSize := 40
    fontFamily := "Arial"
    fontWeight := "normal"
    fill := "#ff0000"
    stroke := "#000000"
    strokeWidth := 2
    textAlign := "left"
    fontStyle := "normal"
    opacity := 1
    lineHeight := 12/10
    letterSpacing := 0
    textDecoration := "none"
    textShadow := { color := "#000000", blur := 0, offsetX := 0, offsetY := 0 }
    paragraphWidth := 300 }

/-- React state of the `TextEditor` component that the engine claims are
about: layer list, selection, current style template, history and its
cursor, and the one-shot replay flag. -/
structure EditorState where
  textLayers : List TextLayer
  selectedIds : List String
  textStyle : TextStyle
  history : List (List TextLayer)
  currentStep : Nat
  isUndoRedoAction : Bool
deriving DecidableEq

/-- The new layer built by `addText` from the current style template; the
argument `now` is the value of `Date.now()` used for the id. -/
def newTextLayer (style : TextStyle) (now : Nat) : TextLayer :=
  { id := "text-" ++ toString now
    x := 50
    y := 50
    text := "Double click to edit"
    fontSize := style.fontSize
    fontFamily := style.fontFamily
    fontWeight := style.fontWeight
    fill := style.fill
    stroke := style.stroke
    strokeWidth := style.strokeWidth
    textAlign := style.textAlign
    fontStyle := style.fontStyle
    opacity := style.opacity
    lineHeight := style.lineHeight
    letterSpacing := style.letterSpacing
    textDecoration := style.textDecoration
    textShadow := style.textShadow
    paragraphWidth := style.paragraphWidth
    rotation := 0
    scaleX := 1
    scaleY := 1
    locked := false
    isWarped := false
    warpPath := ""
    warpPathType := "arc"
    warpRadius := 100
    warpAngle := 180
    warpSpacing := 1
    showSpacingHints := false
    spacingHintColor := "#3B82F6"
    spacingHintOpacity := 6/10
    customFonts := [] }

/-- Fallback layer used where JS array indexing is known to be in range. -/
def blankLayer : TextLayer := newTextLayer defaultTextStyle 0

/-- The `addToHistory` callback: a replay-originated call is consumed by the
one-shot flag; otherwise the history is truncated after the cursor, the new
snapshot pushed, the oldest entry shifted out past the cap of 20, and the
cursor advanced but clamped at 19. -/
def addToHistory (st : EditorState) (newLayers : List TextLayer) : EditorState :=
  if st.isUndoRedoAction then
    { st with isUndoRedoAction := false }
  else
    let pushed := st.history.take (st.currentStep + 1) ++ [newLayers]
    let newHistory := if pushed.length > 20 then pushed.tail else pushed
    { st with history := newHistory, currentStep := min (st.currentStep + 1) 19 }

/-- Shared shape of every mutating handler: `setTextLayers(newLayers)`
followed by `addToHistory(newLayers)`. -/
def commitLayers (st : EditorState) (newLayers : List TextLayer) : EditorState :=
  addToHistory { st with textLayers := newLayers } newLayers

/-- The `undo` callback of TextEditor.tsx. -/
def undo (st : EditorState) : EditorState :=
  if 0 < st.currentStep then
    let newStep := st.currentStep - 1
    { st with
      isUndoRedoAction := true
      currentStep := newStep
      textLayers := st.history.getD newStep []
      selectedIds := [] }
  else st

/-- The `redo` callback of TextEditor.tsx. -/
def redo (st : EditorState) : EditorState :=
  if st.currentStep < st.history.length - 1 then
    let newStep := st.currentStep + 1
    { st with
      isUndoRedoAction := true
      currentStep := newStep
      textLayers := st.history.getD newStep []
      selectedIds := [] }
  else st

/-- The `addText` callback: append a fresh layer seeded from the style
template, record the snapshot, and select only the new layer. -/
def addText (st : EditorState) (now : Nat) : EditorState :=
  let newText := newTextLayer st.textStyle now
  let newLayers := st.textLayers ++ [newText]
  { commitLayers st newLayers with selectedIds := [newText.id] }

/-- The `duplicateLayer` callback: for a single selected id, clone the found
layer with a timestamp id, offset (+20,+20), `locked := false`, append it and
select only the clone. -/
def duplicateLayer (st : EditorState) (now : Nat) : EditorState :=
  if st.selectedIds.length = 1 then
    let selId := st.selectedIds.headD ""
    match st.textLayers.find? (fun l => l.id = selId) with
    | some l =>
      let dup : TextLayer :=
        { l with
          id := "text-" ++ toString now
          x := l.x + 20
          y := l.y + 20
          locked := false }
      let newLayers := st.textLayers ++ [dup]
      { commitLayers st newLayers with selectedIds := [dup.id] }
    | none => st
  else st

/-- Layers of the collection whose id is currently selected, in paint
order (the `selectedLayers` filter used by several handlers). -/
def selectedLayersOf (st : EditorState) : List TextLayer :=
  st.textLayers.filter (fun l => st.selectedIds.contains l.id)

/-- The `toggleLock` callback: group-consistent lock toggle over the current
selection. -/
def toggleLock (st : EditorState) : EditorState :=
  if st.selectedIds.isEmpty then st
  else
    let selLayers := selectedLayersOf st
    if 0 < selLayers.length then
      let allLocked := selLayers.all (fun l => l.locked)
      let newLock := !allLocked
      let newLayers := st.textLayers.map (fun l =>
        if st.selectedIds.contains l.id then { l with locked := newLock } else l)
      commitLayers st newLayers
    else st

/-- The `moveLayerUp` callback: swap the single selected layer with the layer
at the previous index. -/
def moveLayerUp (st : EditorState) : EditorState :=
  if st.selectedIds.length = 1 then
    let selId := st.selectedIds.headD ""
    match st.textLayers.findIdx? (fun l => l.id = selId) with
    | some i =>
      if 0 < i then
        let a := st.textLayers.getD i blankLayer
        let b := st.textLayers.getD (i - 1) blankLayer
        commitLayers st ((st.textLayers.set i b).set (i - 1) a)
      else st
    | none => st
  else st

/-- The `moveLayerDown` callback: swap the single selected layer with the
layer at the next index. -/
def moveLayerDown (st : EditorState) : EditorState :=
  if st.selectedIds.length = 1 then
    let selId := st.selectedIds.headD ""
    match st.textLayers.findIdx? (fun l => l.id = selId) with
    | some i =>
      if i + 1 < st.textLayers.length then
        let a := st.textLayers.getD i blankLayer
        let b := st.textLayers.getD (i + 1) blankLayer
        commitLayers st ((st.textLayers.set i b).set (i + 1) a)
      else st
    | none => st
  else st

/-- The `bringToFront` callback: move the single selected layer to the end
of the paint order. -/
def bringToFront (st : EditorState) : EditorState :=
  if st.selectedIds.length = 1 then
    let selId := st.selectedIds.headD ""
    match st.textLayers.find? (fun l => l.id = selId) with
    | some l =>
      let others := st.textLayers.filter (fun x => x.id ≠ selId)
      commitLayers st (others ++ [l])
    | none => st
  else st

/-- The `sendToBack` callback: move the single selected layer to the start
of the paint order. -/
def sendToBack (st : EditorState) : EditorState :=
  if st.selectedIds.length = 1 then
    let selId := st.selectedIds.headD ""
    match st.textLayers.find? (fun l => l.id = selId) with
    | some l =>
      let others := st.textLayers.filter (fun x => x.id ≠ selId)
      commitLayers st ([l] ++ others)
    | none => st
  else st

/-- The `alignLayersVertically` callback: with at least two selected ids,
set the y of every selected layer to the arithmetic mean of the selected
y values.  The JS reduce-then-divide is exact division over `ℚ` here; the
guard keeps the divisor positive on every state the claims quantify over. -/
def alignLayersVertically (st : EditorState) : EditorState :=
  if 2 ≤ st.selectedIds.length then
    let selLayers := selectedLayersOf st
    let centerY := (selLayers.foldl (fun s l => s + l.y) 0) / (selLayers.length : ℚ)
    commitLayers st (st.textLayers.map (fun l =>
      if st.selectedIds.contains l.id then { l with y := centerY } else l))
  else st

/-- The `alignLayersHorizontally` callback: with at least two selected ids,
set the x of every selected layer to the arithmetic mean of the selected
x values.  Note that this function touches x only; it never writes y. -/
def alignLayersHorizontally (st : EditorState) : EditorState :=
  if 2 ≤ st.selectedIds.length then
    let selLayers := selectedLayersOf st
    let centerX := (selLayers.foldl (fun s l => s + l.x) 0) / (selLayers.length : ℚ)
    commitLayers st (st.textLayers.map (fun l =>
      if st.selectedIds.contains l.id then { l with x := centerX } else l))
  else st

/-- The JSON record written by `saveToLocalStorage` (persistence record
layout of the spec).  JSON stringify/parse of these well-typed fields is
the identity, so the stored blob is modelled as the record itself. -/
structure SaveData where
  textLayers : List TextLayer
  history : List (List TextLayer)
  currentStep : Nat
  imageUrl : String
  imageWidth : Int
  imageHeight : Int
  timestamp : String
  version : String
deriving DecidableEq

/-- The `saveToLocalStorage` callback: wrap the state with a timestamp and
the fixed version string and store it. -/
def saveToLocalStorage (textLayers : List TextLayer)
    (history : List (List TextLayer)) (currentStep : Nat)
    (imageUrl : String) (imageWidth imageHeight : Int)
    (timestamp : String) : SaveData :=
  { textLayers := textLayers
    history := history
    currentStep := currentStep
    imageUrl := imageUrl
    imageWidth := imageWidth
    imageHeight := imageHeight
    timestamp := timestamp
    version := "1.0" }

/-- Result of session start: the `(textLayers, history, currentStep)` triple
after `loadFromLocalStorage` runs against the storage content.  A missing
record, a parse failure, or an image-identity mismatch leaves the initial
React state `([], [[]], 0)` in place; a matching record installs its
contents.  The code compares only `imageUrl`, `imageWidth` and
`imageHeight`; it never reads the stored `version` field. -/
def loadFromLocalStorage (stored : Option SaveData)
    (imageUrl : String) (imageWidth imageHeight : Int) :
    List TextLayer × List (List TextLayer) × Nat :=
  match stored with
  | none => ([], [[]], 0)
  | some parsed =>
    if parsed.imageUrl = imageUrl ∧ parsed.imageWidth = imageWidth ∧
        parsed.imageHeight = imageHeight then
      (parsed.textLayers, parsed.history, parsed.currentStep)
    else
      ([], [[]], 0)

/-- Placement angle (radians) of the arc warp path at progress `t`, from
`getPositionAndRotation` in the warped-text renderer: the angle setting is
converted to radians once and the arc spans from minus half of it to plus
half of it. -/
noncomputable def arcCurrentAngle (angle t : ℝ) : ℝ :=
  -(angle * Real.pi / 180) / 2 + t * (angle * Real.pi / 180)

/-- Arc warp x placement at progress `t` for anchor x `cx`. -/
noncomputable def arcPosX (cx r angle t : ℝ) : ℝ :=
  cx + r * Real.cos (arcCurrentAngle angle t)

/-- Arc warp y placement at progress `t` for anchor y `cy`. -/
noncomputable def arcPosY (cy r angle t : ℝ) : ℝ :=
  cy + r * Real.sin (arcCurrentAngle angle t)

/-- Arc warp character rotation at progress `t`: the placement angle
converted back to degrees, plus 90. -/
noncomputable def arcRot (angle t : ℝ) : ℝ :=
  arcCurrentAngle angle t * 180 / Real.pi + 90

/-- Modelled from the spec: x coordinate of the point at `d` degrees from
the anchor at distance `r`, the language in which the claim states the arc
endpoints. -/
noncomputable def pointAtDegX (cx r d : ℝ) : ℝ :=
  cx + r * Real.cos (d * Real.pi / 180)

/-- Modelled from the spec: y coordinate of the point at `d` degrees from
the anchor at distance `r`. -/
noncomputable def pointAtDegY (cy r d : ℝ) : ℝ :=
  cy + r * Real.sin (d * Real.pi / 180)

/-- Applying a sequence of mutation payloads, each committed the way every
mutating handler commits its `newLayers`. -/
def applyMuts (st : EditorState) (ms : List (List TextLayer)) : EditorState :=
  ms.foldl commitLayers st

/-- Calling `undo` a given number of times. -/
def undoN (st : EditorState) : Nat → EditorState
  | 0 => st
  | n + 1 => undoN (undo st) n

/-- Mismatching record used to witness the discard branch of C3. -/
def otherImageRec : SaveData :=
  { textLayers := []
    history := [[], []]
    currentStep := 1
    imageUrl := "other.png"
    imageWidth := 2
    imageHeight := 3
    timestamp := "t"
    version := "1.0" }

/-- Record with an incompatible schema version but matching image identity,
used to refute C4. -/
def staleVersionRec : SaveData :=
  { textLayers := []
    history := [[], []]
    currentStep := 1
    imageUrl := "img.png"
    imageWidth := 2
    imageHeight := 3
    timestamp := "t"
    version := "0.9" }

/-- Session state at the history cap used to witness C2. -/
def cst2 : EditorState :=
  { textLayers := []
    selectedIds := []
    textStyle := defaultTextStyle
    history := List.replicate 20 []
    currentStep := 19
    isUndoRedoAction := false }

/-- Statement of C6 for one state: the group-consistent lock toggle.  When
every selected layer is locked, each selected layer comes out unlocked;
when at least one selected layer is unlocked, each selected layer comes out
locked; layers outside the selection are untouched. -/
def toggleLockSpec (st : EditorState) : Prop :=
  (toggleLock st).textLayers.length = st.textLayers.length ∧
  ((selectedLayersOf st).all (fun l => l.locked) = true →
    ∀ i, i < st.textLayers.length →
      st.selectedIds.contains (st.textLayers.getD i blankLayer).id = true →
      ((toggleLock st).textLayers.getD i blankLayer).locked = false) ∧
  ((selectedLayersOf st).all (fun l => l.locked) = false →
    ∀ i, i < st.textLayers.length →
      st.selectedIds.contains (st.textLayers.getD i blankLayer).id = true →
      ((toggleLock st).textLayers.getD i blankLayer).locked = true) ∧
  (∀ i, i < st.textLayers.length →
    st.selectedIds.contains (st.textLayers.getD i blankLayer).id = false →
    (toggleLock st).textLayers.getD i blankLayer = st.textLayers.getD i blankLayer)

/-- Two-layer layer factory used by concrete lock states. -/
def mkLockLayer (i : String) (lk : Bool) : TextLayer :=
  { newTextLayer defaultTextStyle 0 with id := i, locked := lk }

/-- Concrete state for the C6 witness: selected layer a unlocked, layer b
locked and not selected. -/
def cst6 : EditorState :=
  { textLayers := [mkLockLayer "a" false, mkLockLayer "b" true]
    selectedIds := ["a"]
    textStyle := defaultTextStyle
    history := [[]]
    currentStep := 0
    isUndoRedoAction := false }

/-- Statement of the amended C5 for a state whose single selected id
resolves to layer l and a clock value whose derived id is fresh: the clone
is appended, carries the exact (+20,+20) offset, is unlocked, has an id
different from every pre-existing id (the source included), and becomes the
sole selection. -/
def duplicateSpec (st : EditorState) (now : Nat) (l : TextLayer) : Prop :=
  (duplicateLayer st now).textLayers =
    st.textLayers ++
      [{ l with
          id := "text-" ++ toString now
          x := l.x + 20
          y := l.y + 20
          locked := false }] ∧
  "text-" ++ toString now ≠ l.id ∧
  (∀ m ∈ st.textLayers, m.id ≠ "text-" ++ toString now) ∧
  (duplicateLayer st now).selectedIds = ["text-" ++ toString now]

/-- Source layer of the C5 witness. -/
def dupBase : TextLayer := { newTextLayer defaultTextStyle 0 with id := "base" }

/-- Concrete state for the C5 witness: one selected layer with id base. -/
def cst5 : EditorState :=
  { textLayers := [dupBase]
    selectedIds := ["base"]
    textStyle := defaultTextStyle
    history := [[], [dupBase]]
    currentStep := 1
    isUndoRedoAction := false }

/-- Concrete state refuting C5 as stated: the only layer already carries
the id text-7 that `Date.now()` will produce. -/
def cst5x : EditorState :=
  { textLayers := [{ newTextLayer defaultTextStyle 0 with id := "text-7" }]
    selectedIds := ["text-7"]
    textStyle := defaultTextStyle
    history := [[]]
    currentStep := 0
    isUndoRedoAction := false }

/-- Guard part of C7: with a selection whose size is not 1, none of the
four reorder operations changes anything. -/
def reorderGuardSpec (st : EditorState) : Prop :=
  st.selectedIds.length ≠ 1 →
    moveLayerUp st = st ∧ moveLayerDown st = st ∧
    bringToFront st = st ∧ sendToBack st = st

/-- The new list is the old list with the entries at i and j exchanged. -/
def swapSpec (old new : List TextLayer) (i j : Nat) : Prop :=
  new.length = old.length ∧
  new.getD j blankLayer = old.getD i blankLayer ∧
  new.getD i blankLayer = old.getD j blankLayer ∧
  ∀ k, k ≠ i → k ≠ j → new.getD k blankLayer = old.getD k blankLayer

/-- Move-up part of C7: the selected layer at index i swaps with index
i - 1; at the boundary i = 0 nothing changes. -/
def moveUpSpec (st : EditorState) (i : Nat) : Prop :=
  st.textLayers.findIdx? (fun l => l.id = st.selectedIds.headD "") = some i →
    (0 < i → swapSpec st.textLayers (moveLayerUp st).textLayers i (i - 1)) ∧
    (i = 0 → moveLayerUp st = st)

/-- Move-down part of C7: the selected layer at index i swaps with index
i + 1; at the boundary nothing changes. -/
def moveDownSpec (st : EditorState) (i : Nat) : Prop :=
  st.textLayers.findIdx? (fun l => l.id = st.selectedIds.headD "") = some i →
    (i + 1 < st.textLayers.length →
      swapSpec st.textLayers (moveLayerDown st).textLayers i (i + 1)) ∧
    (¬i + 1 < st.textLayers.length → moveLayerDown st = st)

/-- Bring-to-front part of C7: the selected layer moves to the end of the
paint order while the others keep their relative order. -/
def frontSpec (st : EditorState) (l : TextLayer) : Prop :=
  st.textLayers.find? (fun x => x.id = st.selectedIds.headD "") = some l →
    (bringToFront st).textLayers =
      st.textLayers.filter (fun x => x.id ≠ st.selectedIds.headD "") ++ [l]

/-- Send-to-back part of C7: the selected layer moves to the start of the
paint order while the others keep their relative order. -/
def backSpec (st : EditorState) (l : TextLayer) : Prop :=
  st.textLayers.find? (fun x => x.id = st.selectedIds.headD "") = some l →
    (sendToBack st).textLayers =
      [l] ++ st.textLayers.filter (fun x => x.id ≠ st.selectedIds.headD "")

/-- Bare layer with a chosen id, used by concrete reorder states. -/
def rLayer (s : String) : TextLayer := { newTextLayer defaultTextStyle 0 with id := s }

/-- Concrete three-layer state with the middle layer selected, for the C7
witness. -/
def cst7 : EditorState :=
  { textLayers := [rLayer "a", rLayer "b", rLayer "c"]
    selectedIds := ["b"]
    textStyle := defaultTextStyle
    history := [[]]
    currentStep := 0
    isUndoRedoAction := false }

/-- Concrete state refuting the locked guard of C7: the single selected
layer b is locked. -/
def cst7x : EditorState :=
  { textLayers := [rLayer "a", { rLayer "b" with locked := true }]
    selectedIds := ["b"]
    textStyle := defaultTextStyle
    history := [[]]
    currentStep := 0
    isUndoRedoAction := false }

/-- Mean of the y coordinates of the selected layers, as the code computes
it: reduce-sum then divide by the count. -/
def selectedMeanY (st : EditorState) : ℚ :=
  ((selectedLayersOf st).foldl (fun s l => s + l.y) 0) / ((selectedLayersOf st).length : ℚ)

/-- Statement of the amended C8 for one state: alignLayersVertically sets
the y of every selected layer to the mean of the selected y values and
leaves every non-selected layer unchanged. -/
def alignVerticallySpec (st : EditorState) : Prop :=
  (alignLayersVertically st).textLayers.length = st.textLayers.length ∧
  ∀ i, i < st.textLayers.length →
    (st.selectedIds.contains (st.textLayers.getD i blankLayer).id = true →
      (alignLayersVertically st).textLayers.getD i blankLayer =
        { st.textLayers.getD i blankLayer with y := selectedMeanY st }) ∧
    (st.selectedIds.contains (st.textLayers.getD i blankLayer).id = false →
      (alignLayersVertically st).textLayers.getD i blankLayer =
        st.textLayers.getD i blankLayer)

/-- Positioned layer factory for concrete alignment states. -/
def posLayer (s : String) (px py : ℚ) : TextLayer :=
  { newTextLayer defaultTextStyle 0 with id := s, x := px, y := py }

/-- Concrete state of the C8 claim: three selected layers with
y = 10, 20, 30. -/
def cst8 : EditorState :=
  { textLayers := [posLayer "a" 0 10, posLayer "b" 0 20, posLayer "c" 0 30]
    selectedIds := ["a", "b", "c"]
    textStyle := defaultTextStyle
    history := [[]]
    currentStep := 0
    isUndoRedoAction := false }

/-- Concrete state for the undo half of the C10 witness: the cursor sits on
the newest of three entries, exactly the state left by a normal mutation,
and redo is a no-op here. -/
def cst10u : EditorState :=
  { textLayers := [rLayer "m", rLayer "n"]
    selectedIds := ["n"]
    textStyle := defaultTextStyle
    history := [[], [rLayer "m"], [rLayer "m", rLayer "n"]]
    currentStep := 2
    isUndoRedoAction := false }

/-- Concrete state for the redo half of the C10 witness: the cursor sits at
0 after undoing everything, and undo is a no-op here. -/
def cst10r : EditorState :=
  { textLayers := []
    selectedIds := []
    textStyle := defaultTextStyle
    history := [[], [rLayer "m"], [rLayer "m", rLayer "n"]]
    currentStep := 0
    isUndoRedoAction := false }

/-- Fresh-session state for the C1 witness. -/
def cst1 : EditorState :=
  { textLayers := []
    selectedIds := []
    textStyle := defaultTextStyle
    history := [[]]
    currentStep := 0
    isUndoRedoAction := false }

/-- Fresh-session start state of the C1 counterexample. -/
def c1Start : EditorState :=
  { textLayers := []
    selectedIds := []
    textStyle := defaultTextStyle
    history := [[]]
    currentStep := 0
    isUndoRedoAction := false }

/- Shared helper lemmas about the embedded operations, then the claim theorems. -/

lemma commitLayers_textLayers (st : EditorState) (nl : List TextLayer) :
    (commitLayers st nl).textLayers = nl := by
  unfold commitLayers addToHistory
  split <;> rfl

lemma commitLayers_selectedIds (st : EditorState) (nl : List TextLayer) :
    (commitLayers st nl).selectedIds = st.selectedIds := by
  unfold commitLayers addToHistory
  split <;> rfl

lemma getD_map_of_lt (f : TextLayer → TextLayer) (l : List TextLayer) (i : Nat)
    (h : i < l.length) (d d' : TextLayer) :
    (l.map f).getD i d' = f (l.getD i d) := by
  simp [List.getD_eq_getElem?_getD, List.getElem?_map, List.getElem?_eq_getElem, h]

/-- Exact effect of one push in the cap-free regime: the history is
truncated after the cursor, the snapshot appended, and the cursor advanced
by one. -/
lemma addToHistory_push (st : EditorState) (nl : List TextLayer)
    (hflag : st.isUndoRedoAction = false)
    (hcap : st.currentStep + 1 ≤ 19) :
    addToHistory st nl =
      { st with
        history := st.history.take (st.currentStep + 1) ++ [nl]
        currentStep := st.currentStep + 1 } := by
  have hlen : (st.history.take (st.currentStep + 1) ++ [nl]).length ≤ 20 := by
    simp [List.length_take]
    omega
  unfold addToHistory
  rw [if_neg (by simp [hflag])]
  simp only []
  rw [if_neg (by omega)]
  have hmin : min (st.currentStep + 1) 19 = st.currentStep + 1 := by omega
  rw [hmin]

/-- Exact effect of one commit in the cap-free regime. -/
lemma commitLayers_spec (st : EditorState) (nl : List TextLayer)
    (hflag : st.isUndoRedoAction = false)
    (hcap : st.currentStep + 1 ≤ 19) :
    commitLayers st nl =
      { st with
        textLayers := nl
        history := st.history.take (st.currentStep + 1) ++ [nl]
        currentStep := st.currentStep + 1 } := by
  unfold commitLayers
  rw [addToHistory_push { st with textLayers := nl } nl hflag hcap]

/-- Exact effect of one push at the cap: the oldest snapshot is shifted out
and the cursor stays at 19. -/
lemma addToHistory_evict (st : EditorState) (nl : List TextLayer)
    (hflag : st.isUndoRedoAction = false)
    (hc : st.currentStep = 19)
    (hlen : st.history.length = 20) :
    addToHistory st nl =
      { st with history := st.history.tail ++ [nl], currentStep := 19 } := by
  have htakeall : st.history.take (st.currentStep + 1) = st.history :=
    List.take_of_length_le (by omega)
  have hne : st.history ≠ [] := by
    intro h
    rw [h] at hlen
    simp at hlen
  have hpushed : (st.history.take (st.currentStep + 1) ++ [nl]).length = 21 := by
    rw [htakeall]
    simp [hlen]
  unfold addToHistory
  rw [if_neg (by simp [hflag])]
  simp only []
  rw [if_pos (by omega)]
  rw [htakeall, List.tail_append_of_ne_nil hne, hc]
  simp

/-- C9: for the arc warp path with anchor (cx, cy), radius r and angle
theta in degrees, the per-character placement at progress t = 0 is the
point at angle minus theta/2 from the anchor, at t = 1 the point at plus
theta/2, and at t = 1/2 the point at angle 0, namely (cx + r, cy); the
character rotation at every t equals the placement angle expressed in
degrees plus 90. -/
theorem arc_endpoints_and_rotation (cx cy r angle : ℝ) :
    arcPosX cx r angle 0 = pointAtDegX cx r (-(angle / 2)) ∧
    arcPosY cy r angle 0 = pointAtDegY cy r (-(angle / 2)) ∧
    arcPosX cx r angle 1 = pointAtDegX cx r (angle / 2) ∧
    arcPosY cy r angle 1 = pointAtDegY cy r (angle / 2) ∧
    arcPosX cx r angle (1 / 2) = cx + r ∧
    arcPosY cy r angle (1 / 2) = cy ∧
    ∀ t, arcRot angle t = (-(angle / 2) + t * angle) + 90 := by
  have h0 : arcCurrentAngle angle 0 = -(angle / 2) * Real.pi / 180 := by
    unfold arcCurrentAngle; ring
  have h1 : arcCurrentAngle angle 1 = (angle / 2) * Real.pi / 180 := by
    unfold arcCurrentAngle; ring
  have hhalf : arcCurrentAngle angle (1 / 2) = 0 := by
    unfold arcCurrentAngle; ring
  refine ⟨?_, ?_, ?_, ?_, ?_, ?_, ?_⟩
  · rw [arcPosX, pointAtDegX, h0]
  · rw [arcPosY, pointAtDegY, h0]
  · rw [arcPosX, pointAtDegX, h1]
  · rw [arcPosY, pointAtDegY, h1]
  · rw [arcPosX, hhalf, Real.cos_zero, mul_one]
  · rw [arcPosY, hhalf, Real.sin_zero, mul_zero, add_zero]
  · intro t
    have harg : arcCurrentAngle angle t = (-(angle / 2) + t * angle) * Real.pi / 180 := by
      unfold arcCurrentAngle; ring
    rw [arcRot, harg]
    have hpi : Real.pi ≠ 0 := Real.pi_ne_zero
    field_simp
    ring

/-- C3: serializing the session state and deserializing against the same
image identity reproduces the layer collection, the history and the cursor;
deserializing any record whose stored image identity differs from the
current image yields the empty starting state. -/
theorem save_load_roundtrip (layers : List TextLayer)
    (hist : List (List TextLayer)) (step : Nat) (url : String) (w h : Int)
    (ts : String) (d : SaveData)
    (hmismatch : ¬(d.imageUrl = url ∧ d.imageWidth = w ∧ d.imageHeight = h)) :
    loadFromLocalStorage (some (saveToLocalStorage layers hist step url w h ts)) url w h
      = (layers, hist, step) ∧
    loadFromLocalStorage (some d) url w h = ([], [[]], 0) := by
  constructor
  · simp [loadFromLocalStorage, saveToLocalStorage]
  · simp only [loadFromLocalStorage]
    rw [if_neg hmismatch]

/-- Witness for C3 at concrete values. -/
theorem save_load_roundtrip_witness :
    loadFromLocalStorage
        (some (saveToLocalStorage [] [[], []] 1 "img.png" 2 3 "t")) "img.png" 2 3
      = ([], [[], []], 1) ∧
    loadFromLocalStorage (some otherImageRec) "img.png" 2 3 = ([], [[]], 0) :=
  save_load_roundtrip [] [[], []] 1 "img.png" 2 3 "t" otherImageRec (by decide)

/-- Counterexample to C4 as stated: a stored record whose schema version
0.9 is not the current 1.0 but whose image identity matches is loaded, not
discarded; the session does not start from the empty state ([], [[,]], 0). -/
theorem load_accepts_stale_version :
    staleVersionRec.version ≠ "1.0" ∧
    staleVersionRec.imageUrl = "img.png" ∧
    staleVersionRec.imageWidth = 2 ∧
    staleVersionRec.imageHeight = 3 ∧
    loadFromLocalStorage (some staleVersionRec) "img.png" 2 3 ≠ ([], [[]], 0) := by
  decide

/-- C4 amended: load never reads the stored schema version; every stored
record whose image identity matches the current image is installed as is,
whatever its version string. -/
theorem load_ignores_version (d : SaveData) (url : String) (w h : Int)
    (hmatch : d.imageUrl = url ∧ d.imageWidth = w ∧ d.imageHeight = h) :
    loadFromLocalStorage (some d) url w h = (d.textLayers, d.history, d.currentStep) := by
  simp only [loadFromLocalStorage]
  rw [if_pos hmatch]

/-- Witness for the amended C4: the stale-version record is loaded. -/
theorem load_ignores_version_witness :
    loadFromLocalStorage (some staleVersionRec) "img.png" 2 3
      = (staleVersionRec.textLayers, staleVersionRec.history, staleVersionRec.currentStep) :=
  load_ignores_version staleVersionRec "img.png" 2 3 (by decide)

lemma getD_append_length (A : List (List TextLayer)) (B : List TextLayer) :
    (A ++ [B]).getD A.length [] = B := by
  simp [List.getD_eq_getElem?_getD, List.getElem?_append_right (Nat.le_refl A.length)]

/-- C2: after every record of a snapshot the history has length at most
20; when a push would exceed the cap, exactly the oldest entry is evicted,
the relative order of the remaining entries is preserved (the history
becomes the old history with its head dropped, then the new snapshot), and
the cursor still addresses the newest entry. -/
theorem history_capped_eviction (st : EditorState) (nl : List TextLayer)
    (hcur : st.currentStep < st.history.length)
    (hlen : st.history.length ≤ 20) :
    (addToHistory st nl).history.length ≤ 20 ∧
    (st.isUndoRedoAction = false → 19 ≤ st.currentStep →
      (addToHistory st nl).history = st.history.drop 1 ++ [nl] ∧
      (addToHistory st nl).currentStep = (addToHistory st nl).history.length - 1) ∧
    (st.isUndoRedoAction = false →
      (addToHistory st nl).history.getD (addToHistory st nl).currentStep [] = nl) := by
  by_cases hflag : st.isUndoRedoAction = true
  · have heq : addToHistory st nl = { st with isUndoRedoAction := false } := by
      unfold addToHistory
      rw [if_pos hflag]
    refine ⟨?_, ?_, ?_⟩
    · rw [heq]
      exact hlen
    · intro hf
      simp [hf] at hflag
    · intro hf
      simp [hf] at hflag
  · have hflag' : st.isUndoRedoAction = false := by simpa using hflag
    have htakelen : (st.history.take (st.currentStep + 1)).length = st.currentStep + 1 := by
      rw [List.length_take]
      omega
    by_cases hc : 19 ≤ st.currentStep
    · have hc19 : st.currentStep = 19 := by omega
      have hlen20 : st.history.length = 20 := by omega
      have hev := addToHistory_evict st nl hflag' hc19 hlen20
      have htail : st.history.tail.length = 19 := by simp [hlen20]
      refine ⟨?_, fun _ _ => ⟨?_, ?_⟩, fun _ => ?_⟩
      · rw [hev]
        simp [htail]
      · rw [hev, List.drop_one]
      · rw [hev]
        simp [htail]
      · rw [hev]
        have hg := getD_append_length st.history.tail nl
        rw [htail] at hg
        exact hg
    · have hcap : st.currentStep + 1 ≤ 19 := by omega
      have hp := addToHistory_push st nl hflag' hcap
      refine ⟨?_, fun _ h19 => absurd h19 (by omega), fun _ => ?_⟩
      · rw [hp]
        simp [htakelen]
        omega
      · rw [hp]
        have hg := getD_append_length (st.history.take (st.currentStep + 1)) nl
        rw [htakelen] at hg
        exact hg

/-- Witness for C2 at a full history: the push evicts and the length stays
exactly 20. -/
theorem history_capped_eviction_witness :
    ((addToHistory cst2 [blankLayer]).history.length ≤ 20 ∧
      (cst2.isUndoRedoAction = false → 19 ≤ cst2.currentStep →
        (addToHistory cst2 [blankLayer]).history = cst2.history.drop 1 ++ [[blankLayer]] ∧
        (addToHistory cst2 [blankLayer]).currentStep
          = (addToHistory cst2 [blankLayer]).history.length - 1) ∧
      (cst2.isUndoRedoAction = false →
        (addToHistory cst2 [blankLayer]).history.getD
          (addToHistory cst2 [blankLayer]).currentStep [] = [blankLayer])) ∧
    (addToHistory cst2 [blankLayer]).history.length = 20 :=
  ⟨history_capped_eviction cst2 [blankLayer] (by decide) (by decide), by decide⟩

lemma getD_mem_of_lt (l : List TextLayer) (i : Nat) (hi : i < l.length) :
    l.getD i blankLayer ∈ l := by
  rw [List.getD_eq_getElem?_getD, List.getElem?_eq_getElem hi]
  simp

/-- C6: for every non-empty selection, toggleLock unlocks every selected
layer when all selected layers are locked, locks every selected layer when
at least one selected layer is unlocked, and leaves non-selected layers
with their lock state. -/
theorem toggleLock_group_consistent (st : EditorState)
    (hsel : st.selectedIds ≠ []) : toggleLockSpec st := by
  have hne : st.selectedIds.isEmpty = false := List.isEmpty_eq_false.mpr hsel
  by_cases hlay : 0 < (selectedLayersOf st).length
  · have heq : toggleLock st =
        commitLayers st (st.textLayers.map (fun l =>
          if st.selectedIds.contains l.id then
            { l with locked := !((selectedLayersOf st).all (fun l => l.locked)) }
          else l)) := by
      unfold toggleLock
      rw [if_neg (by simp [hne]), if_pos hlay]
    refine ⟨?_, ?_, ?_, ?_⟩
    · rw [heq, commitLayers_textLayers, List.length_map]
    · intro hall i hi hcont
      rw [heq, commitLayers_textLayers,
        getD_map_of_lt _ _ i hi blankLayer blankLayer, if_pos hcont, hall]
      rfl
    · intro hall i hi hcont
      rw [heq, commitLayers_textLayers,
        getD_map_of_lt _ _ i hi blankLayer blankLayer, if_pos hcont, hall]
      rfl
    · intro i hi hcont
      rw [heq, commitLayers_textLayers,
        getD_map_of_lt _ _ i hi blankLayer blankLayer, hcont]
      simp
  · have hnil : selectedLayersOf st = [] := by
      cases h : selectedLayersOf st with
      | nil => rfl
      | cons a t =>
        rw [h] at hlay
        simp at hlay
    have heq : toggleLock st = st := by
      unfold toggleLock
      rw [if_neg (by simp [hne]), if_neg hlay]
    have habsurd : ∀ i, i < st.textLayers.length →
        st.selectedIds.contains (st.textLayers.getD i blankLayer).id = true → False := by
      intro i hi hcont
      have hmem : st.textLayers.getD i blankLayer ∈ selectedLayersOf st :=
        List.mem_filter.mpr ⟨getD_mem_of_lt st.textLayers i hi, hcont⟩
      rw [hnil] at hmem
      exact List.not_mem_nil _ hmem
    refine ⟨by rw [heq], ?_, ?_, ?_⟩
    · intro _ i hi hcont
      exact (habsurd i hi hcont).elim
    · intro _ i hi hcont
      exact (habsurd i hi hcont).elim
    · intro i hi hcont
      rw [heq]

/-- Witness for C6: with one unlocked selected layer, toggleLock locks it
and leaves the non-selected layer alone. -/
theorem toggleLock_group_consistent_witness :
    toggleLockSpec cst6 ∧
    (toggleLock cst6).textLayers.map (fun l => l.locked) = [true, true] :=
  ⟨toggleLock_group_consistent cst6 (by decide), by decide⟩

/-- C5 amended: duplicating the single selected layer appends an unlocked
clone at (+20,+20) with the timestamp-derived id and selects only the
clone; the clone id differs from every existing id exactly when the
timestamp-derived id string is not already in use, which the code does not
otherwise guarantee. -/
theorem duplicate_offsets_and_selects (st : EditorState) (now : Nat) (l : TextLayer)
    (hsel : st.selectedIds.length = 1)
    (hfind : st.textLayers.find? (fun x => x.id = st.selectedIds.headD "") = some l)
    (hfresh : ∀ m ∈ st.textLayers, m.id ≠ "text-" ++ toString now) :
    duplicateSpec st now l := by
  have hmem : l ∈ st.textLayers := List.mem_of_find?_eq_some hfind
  have heq : duplicateLayer st now =
      { commitLayers st (st.textLayers ++
          [{ l with
              id := "text-" ++ toString now
              x := l.x + 20
              y := l.y + 20
              locked := false }]) with selectedIds := ["text-" ++ toString now] } := by
    unfold duplicateLayer
    rw [if_pos hsel]
    simp only [hfind]
  refine ⟨?_, ?_, hfresh, ?_⟩
  · rw [heq]
    show (commitLayers st _).textLayers = _
    rw [commitLayers_textLayers]
  · exact (hfresh l hmem).symm
  · rw [heq]

/-- Witness for the amended C5 at clock value 99. -/
theorem duplicate_offsets_and_selects_witness : duplicateSpec cst5 99 dupBase :=
  duplicate_offsets_and_selects cst5 99 dupBase (by decide) rfl (by decide)

/-- Counterexample to C5 as stated: duplicating the single selected layer
when the clock reads 7 produces a clone whose id text-7 equals the id of
the source, so the clone id does not differ from every existing id. -/
theorem duplicate_id_collision :
    cst5x.selectedIds.length = 1 ∧
    (duplicateLayer cst5x 7).textLayers.map (fun l => l.id) = ["text-7", "text-7"] := by
  decide

/-- C7 amended: the reorder operations act exactly when the selection holds
a single id, whatever the lock state of that layer (the code never checks
`locked` here); up and down swap with the adjacent index, front and back
move the layer to the end and the start of the order, and a selection of
any other size leaves the state untouched. -/
theorem reorder_single_selection (st : EditorState) (i : Nat) (l : TextLayer) :
    reorderGuardSpec st ∧
    (st.selectedIds.length = 1 →
      moveUpSpec st i ∧ moveDownSpec st i ∧ frontSpec st l ∧ backSpec st l) := by
  constructor
  · intro hne
    refine ⟨?_, ?_, ?_, ?_⟩ <;>
      first
        | (unfold moveLayerUp; rw [if_neg hne])
        | (unfold moveLayerDown; rw [if_neg hne])
        | (unfold bringToFront; rw [if_neg hne])
        | (unfold sendToBack; rw [if_neg hne])
  · intro hsel
    refine ⟨?_, ?_, ?_, ?_⟩
    · intro hidx
      have hi : i < st.textLayers.length :=
        (List.findIdx?_eq_some_iff_findIdx_eq.mp hidx).1
      constructor
      · intro hpos
        have heq : moveLayerUp st =
            commitLayers st
              ((st.textLayers.set i (st.textLayers.getD (i - 1) blankLayer)).set
                (i - 1) (st.textLayers.getD i blankLayer)) := by
          unfold moveLayerUp
          rw [if_pos hsel]
          simp only [hidx]
          rw [if_pos hpos]
        refine ⟨?_, ?_, ?_, ?_⟩
        · rw [heq, commitLayers_textLayers, List.length_set, List.length_set]
        · rw [heq, commitLayers_textLayers, List.getD_eq_getElem?_getD,
            List.getElem?_set_self (by rw [List.length_set]; omega)]
          rfl
        · rw [heq, commitLayers_textLayers, List.getD_eq_getElem?_getD,
            List.getElem?_set_ne (show i - 1 ≠ i by omega),
            List.getElem?_set_self hi]
          rfl
        · intro k hki hkj
          rw [heq, commitLayers_textLayers, List.getD_eq_getElem?_getD,
            List.getElem?_set_ne (show i - 1 ≠ k by omega),
            List.getElem?_set_ne (show i ≠ k by omega),
            ← List.getD_eq_getElem?_getD]
      · intro h0
        unfold moveLayerUp
        rw [if_pos hsel]
        simp only [hidx]
        rw [if_neg (by omega)]
    · intro hidx
      have hi : i < st.textLayers.length :=
        (List.findIdx?_eq_some_iff_findIdx_eq.mp hidx).1
      constructor
      · intro hlt
        have heq : moveLayerDown st =
            commitLayers st
              ((st.textLayers.set i (st.textLayers.getD (i + 1) blankLayer)).set
                (i + 1) (st.textLayers.getD i blankLayer)) := by
          unfold moveLayerDown
          rw [if_pos hsel]
          simp only [hidx]
          rw [if_pos hlt]
        refine ⟨?_, ?_, ?_, ?_⟩
        · rw [heq, commitLayers_textLayers, List.length_set, List.length_set]
        · rw [heq, commitLayers_textLayers, List.getD_eq_getElem?_getD,
            List.getElem?_set_self (by rw [List.length_set]; omega)]
          rfl
        · rw [heq, commitLayers_textLayers, List.getD_eq_getElem?_getD,
            List.getElem?_set_ne (show i + 1 ≠ i by omega),
            List.getElem?_set_self hi]
          rfl
        · intro k hki hkj
          rw [heq, commitLayers_textLayers, List.getD_eq_getElem?_getD,
            List.getElem?_set_ne (show i + 1 ≠ k by omega),
            List.getElem?_set_ne (show i ≠ k by omega),
            ← List.getD_eq_getElem?_getD]
      · intro hge
        unfold moveLayerDown
        rw [if_pos hsel]
        simp only [hidx]
        rw [if_neg hge]
    · intro hfind
      have heq : bringToFront st =
          commitLayers st
            (st.textLayers.filter (fun x => x.id ≠ st.selectedIds.headD "") ++ [l]) := by
        unfold bringToFront
        rw [if_pos hsel]
        simp only [hfind]
      rw [heq, commitLayers_textLayers]
    · intro hfind
      have heq : sendToBack st =
          commitLayers st
            ([l] ++ st.textLayers.filter (fun x => x.id ≠ st.selectedIds.headD "")) := by
        unfold sendToBack
        rw [if_pos hsel]
        simp only [hfind]
      rw [heq, commitLayers_textLayers]

/-- Witness for the amended C7: all four reorder operations act on the
middle selected layer of cst7 as stated. -/
theorem reorder_single_selection_witness :
    (reorderGuardSpec cst7 ∧
      (cst7.selectedIds.length = 1 →
        moveUpSpec cst7 1 ∧ moveDownSpec cst7 1 ∧
        frontSpec cst7 (rLayer "b") ∧ backSpec cst7 (rLayer "b"))) ∧
    (moveLayerUp cst7).textLayers.map (fun l => l.id) = ["b", "a", "c"] ∧
    (moveLayerDown cst7).textLayers.map (fun l => l.id) = ["a", "c", "b"] ∧
    (bringToFront cst7).textLayers.map (fun l => l.id) = ["a", "c", "b"] ∧
    (sendToBack cst7).textLayers.map (fun l => l.id) = ["b", "a", "c"] :=
  ⟨reorder_single_selection cst7 1 (rLayer "b"), by decide, by decide, by decide, by decide⟩

/-- Counterexample to C7 as stated: with exactly one selected layer that is
locked, moveLayerUp still reorders the collection instead of leaving it
unchanged. -/
theorem reorder_moves_locked_layer :
    cst7x.selectedIds.length = 1 ∧
    (cst7x.textLayers.getD 1 blankLayer).locked = true ∧
    cst7x.selectedIds.contains (cst7x.textLayers.getD 1 blankLayer).id = true ∧
    (moveLayerUp cst7x).textLayers.map (fun l => l.id) = ["b", "a"] ∧
    (moveLayerUp cst7x).textLayers ≠ cst7x.textLayers := by
  decide

/-- C8 amended: the operation that averages the y coordinates 10, 20 and 30
to 20 is alignLayersVertically, not alignLayersHorizontally; with at least
two selected layers it sets every selected y to the arithmetic mean of the
selected y values and leaves non-selected layers unchanged. -/
theorem alignVertically_sets_mean_y (st : EditorState)
    (hsel : 2 ≤ st.selectedIds.length)
    (_htwo : 2 ≤ (selectedLayersOf st).length) :
    alignVerticallySpec st := by
  have heq : alignLayersVertically st =
      commitLayers st (st.textLayers.map (fun l =>
        if st.selectedIds.contains l.id then { l with y := selectedMeanY st } else l)) := by
    unfold alignLayersVertically
    rw [if_pos hsel]
    rfl
  constructor
  · rw [heq, commitLayers_textLayers, List.length_map]
  · intro i hi
    constructor
    · intro hcont
      rw [heq, commitLayers_textLayers,
        getD_map_of_lt _ _ i hi blankLayer blankLayer, if_pos hcont]
    · intro hcont
      rw [heq, commitLayers_textLayers,
        getD_map_of_lt _ _ i hi blankLayer blankLayer, hcont]
      simp

/-- Witness for the amended C8: on ys 10, 20, 30 the vertical align writes
the mean 20 into every selected layer. -/
theorem alignVertically_sets_mean_y_witness :
    alignVerticallySpec cst8 ∧
    (alignLayersVertically cst8).textLayers.map (fun l => l.y) = [20, 20, 20] :=
  ⟨alignVertically_sets_mean_y cst8 (by decide) (by decide),
    by norm_num [alignLayersVertically, selectedLayersOf, commitLayers, addToHistory,
      cst8, posLayer]⟩

/-- Counterexample to C8 as stated: alignLayersHorizontally applied to the
selection with y = 10, 20, 30 leaves every y unchanged (it averages x
instead), so the selected y values do not all become 20. -/
theorem alignHorizontally_leaves_y_unchanged :
    2 ≤ cst8.selectedIds.length ∧
    (alignLayersHorizontally cst8).textLayers.map (fun l => l.y) = [10, 20, 30] ∧
    ([10, 20, 30] : List ℚ) ≠ [20, 20, 20] := by
  decide

/-- Recording right after a replay is consumed by the one-shot flag: the
live layers change, nothing else does, and the flag clears. -/
lemma commitLayers_replay (st : EditorState) (nl : List TextLayer)
    (h : st.isUndoRedoAction = true) :
    commitLayers st nl = { st with textLayers := nl, isUndoRedoAction := false } := by
  unfold commitLayers addToHistory
  rw [if_pos h]

/-- C10: for every state, immediately after an effective undo (any cursor
above 0, in particular the newest entry where every normal mutation leaves
it), the first mutating operation installs its new layer collection but the
history and the cursor stay exactly as the replay left them and the
one-shot flag is cleared; independently, the same holds after an effective
redo (any cursor below length - 1, in particular cursor 0). -/
theorem replay_flag_suppresses_recording (st : EditorState) (nl : List TextLayer) :
    (0 < st.currentStep →
      (commitLayers (undo st) nl).textLayers = nl ∧
      (commitLayers (undo st) nl).history = st.history ∧
      (commitLayers (undo st) nl).currentStep = (undo st).currentStep ∧
      (commitLayers (undo st) nl).isUndoRedoAction = false) ∧
    (st.currentStep < st.history.length - 1 →
      (commitLayers (redo st) nl).textLayers = nl ∧
      (commitLayers (redo st) nl).history = st.history ∧
      (commitLayers (redo st) nl).currentStep = (redo st).currentStep ∧
      (commitLayers (redo st) nl).isUndoRedoAction = false) := by
  constructor
  · intro hundo
    have hu : (undo st).isUndoRedoAction = true := by
      unfold undo
      rw [if_pos hundo]
    have huh : (undo st).history = st.history := by
      unfold undo
      rw [if_pos hundo]
    have hcu := commitLayers_replay (undo st) nl hu
    refine ⟨by rw [hcu], ?_, by rw [hcu], by rw [hcu]⟩
    rw [hcu]
    exact huh
  · intro hredo
    have hr : (redo st).isUndoRedoAction = true := by
      unfold redo
      rw [if_pos hredo]
    have hrh : (redo st).history = st.history := by
      unfold redo
      rw [if_pos hredo]
    have hcr := commitLayers_replay (redo st) nl hr
    refine ⟨by rw [hcr], ?_, by rw [hcr], by rw [hcr]⟩
    rw [hcr]
    exact hrh

/-- Witness for C10 at the two central cases: undo taken from the newest
entry of cst10u (where redo is impossible), and redo taken from cursor 0 of
cst10r (where undo is impossible), each followed by a fresh mutation. -/
theorem replay_flag_suppresses_recording_witness :
    ((commitLayers (undo cst10u) [rLayer "z"]).textLayers = [rLayer "z"] ∧
      (commitLayers (undo cst10u) [rLayer "z"]).history = cst10u.history ∧
      (commitLayers (undo cst10u) [rLayer "z"]).currentStep = (undo cst10u).currentStep ∧
      (commitLayers (undo cst10u) [rLayer "z"]).isUndoRedoAction = false) ∧
    ((commitLayers (redo cst10r) [rLayer "z"]).textLayers = [rLayer "z"] ∧
      (commitLayers (redo cst10r) [rLayer "z"]).history = cst10r.history ∧
      (commitLayers (redo cst10r) [rLayer "z"]).currentStep = (redo cst10r).currentStep ∧
      (commitLayers (redo cst10r) [rLayer "z"]).isUndoRedoAction = false) :=
  ⟨(replay_flag_suppresses_recording cst10u [rLayer "z"]).1 (by decide),
    (replay_flag_suppresses_recording cst10r [rLayer "z"]).2 (by decide)⟩

/-- Effect of a non-empty run of commits below the cap: the redo branch is
truncated once, the payloads line up after the old cursor position, and the
cursor lands on the last payload. -/
lemma applyMuts_spec : ∀ (ms : List (List TextLayer)) (st : EditorState)
    (m : List TextLayer),
    st.isUndoRedoAction = false →
    st.currentStep < st.history.length →
    st.currentStep + ms.length + 1 ≤ 19 →
    (applyMuts st (m :: ms)).history
        = st.history.take (st.currentStep + 1) ++ (m :: ms) ∧
    (applyMuts st (m :: ms)).currentStep = st.currentStep + ms.length + 1 ∧
    (applyMuts st (m :: ms)).isUndoRedoAction = false := by
  intro ms
  induction ms with
  | nil =>
    intro st m hflag hcur hcap
    have hstep := commitLayers_spec st m hflag (by omega)
    refine ⟨?_, ?_, ?_⟩ <;> simp [applyMuts, hstep, hflag]
  | cons m2 rest ih =>
    intro st m hflag hcur hcap
    have hstep := commitLayers_spec st m hflag (by simp at hcap; omega)
    have hlen1 : (st.history.take (st.currentStep + 1)).length = st.currentStep + 1 := by
      rw [List.length_take]
      omega
    have h1flag : (commitLayers st m).isUndoRedoAction = false := by
      rw [hstep]
      exact hflag
    have h1cur : (commitLayers st m).currentStep < (commitLayers st m).history.length := by
      rw [hstep]
      simp [hlen1]
    have h1cap : (commitLayers st m).currentStep + rest.length + 1 ≤ 19 := by
      rw [hstep]
      simp at hcap ⊢
      omega
    have hfold : applyMuts st (m :: m2 :: rest) = applyMuts (commitLayers st m) (m2 :: rest) := rfl
    obtain ⟨ihh, ihc, ihf⟩ := ih (commitLayers st m) m2 h1flag h1cur h1cap
    refine ⟨?_, ?_, ?_⟩
    · rw [hfold, ihh, hstep]
      have htk : (st.history.take (st.currentStep + 1) ++ [m]).take (st.currentStep + 1 + 1)
          = st.history.take (st.currentStep + 1) ++ [m] :=
        List.take_of_length_le (by simp [hlen1])
      show (st.history.take (st.currentStep + 1) ++ [m]).take (st.currentStep + 1 + 1)
          ++ (m2 :: rest) = _
      rw [htk, List.append_assoc, List.singleton_append]
    · rw [hfold, ihc, hstep]
      simp
      omega
    · rw [hfold, ihf]

/-- Effect of a run of k effective undos: the cursor walks back k steps,
the history is untouched, and the snapshot at the final cursor becomes the
live collection. -/
lemma undoN_spec (k : Nat) : ∀ st : EditorState, 1 ≤ k → k ≤ st.currentStep →
    (undoN st k).textLayers = st.history.getD (st.currentStep - k) [] ∧
    (undoN st k).currentStep = st.currentStep - k ∧
    (undoN st k).history = st.history := by
  induction k with
  | zero =>
    intro st h1 _
    exact absurd h1 (by omega)
  | succ k ih =>
    intro st h1 hk
    have hpos : 0 < st.currentStep := by omega
    have hu : undo st =
        { st with
          isUndoRedoAction := true
          currentStep := st.currentStep - 1
          textLayers := st.history.getD (st.currentStep - 1) []
          selectedIds := [] } := by
      unfold undo
      rw [if_pos hpos]
    by_cases hk0 : k = 0
    · subst hk0
      refine ⟨?_, ?_, ?_⟩ <;> simp [undoN, hu]
    · obtain ⟨iht, ihc, ihh⟩ := ih (undo st) (by omega) (by rw [hu]; simp; omega)
      have hidx : (undo st).currentStep - k = st.currentStep - (k + 1) := by
        rw [hu]
        simp
        omega
      have hsame : (undo st).history = st.history := by rw [hu]
      refine ⟨?_, ?_, ?_⟩
      · show (undoN (undo st) k).textLayers = _
        rw [iht, hidx, hsame]
      · show (undoN (undo st) k).currentStep = _
        rw [ihc, hidx]
      · show (undoN (undo st) k).history = _
        rw [ihh, hsame]

/-- C1 amended: a run of N mutating commits followed by N undos restores
the layer collection, provided the replay flag starts clear, the cursor
addresses the live collection inside the history, and cursor + N stays
within the cap of 19 so that no snapshot is evicted. -/
theorem undo_restores_before_cap (st : EditorState) (ms : List (List TextLayer))
    (hflag : st.isUndoRedoAction = false)
    (hcur : st.currentStep < st.history.length)
    (hinv : st.history.getD st.currentStep [] = st.textLayers)
    (hcap : st.currentStep + ms.length ≤ 19) :
    (undoN (applyMuts st ms) ms.length).textLayers = st.textLayers := by
  cases ms with
  | nil => exact hinv.symm ▸ rfl
  | cons m rest =>
    obtain ⟨hh, hc, _⟩ := applyMuts_spec rest st m hflag hcur (by simp at hcap; omega)
    have hk2 : (m :: rest).length ≤ (applyMuts st (m :: rest)).currentStep := by
      rw [hc]
      simp
    obtain ⟨ht, _, _⟩ := undoN_spec (m :: rest).length (applyMuts st (m :: rest))
      (by simp) hk2
    rw [ht, hh, hc]
    have hidx : st.currentStep + rest.length + 1 - (m :: rest).length = st.currentStep := by
      simp
    rw [hidx]
    have htlen : (st.history.take (st.currentStep + 1)).length = st.currentStep + 1 := by
      rw [List.length_take]
      omega
    rw [List.getD_eq_getElem?_getD,
      List.getElem?_append_left (by rw [htlen]; omega),
      List.getElem?_take_of_lt (by omega),
      ← List.getD_eq_getElem?_getD, hinv]

/-- Witness for the amended C1: one commit then one undo lands back on the
empty collection. -/
theorem undo_restores_before_cap_witness :
    (undoN (applyMuts cst1 [[rLayer "w"]]) 1).textLayers = cst1.textLayers :=
  undo_restores_before_cap cst1 [[rLayer "w"]] (by decide) (by decide) (by decide)
    (by decide)

set_option maxRecDepth 100000 in
/-- Counterexample to C1 as stated: twenty addText mutations from a fresh
session push the history past the cap, the oldest snapshot (the empty
collection) is evicted, and twenty subsequent undos stop at the snapshot
taken after the first mutation instead of restoring the starting state. -/
theorem undo_cannot_cross_eviction :
    c1Start.isUndoRedoAction = false ∧
    (undoN ((List.range 20).foldl (fun s k => addText s k) c1Start) 20).textLayers.map
      (fun l => l.id) = ["text-0"] ∧
    (undoN ((List.range 20).foldl (fun s k => addText s k) c1Start) 20).textLayers
      ≠ c1Start.textLayers := by
  decide
